import Mathlib

/-!
Verification of the leftysay render core (src/main.rs): cache eviction,
renderer fallback retry, render pipeline error propagation, cache-key
derivation, bubble layout and row-budget arithmetic.

Modelling conventions:
* Rust strings are embedded as Lean `String` where only equality matters,
  and as `List Char` in the bubble layout where Rust's `len` drives the
  geometry (exact for the ASCII frame characters involved).
* External effects (the chafa child process, the filesystem) are passed in
  as explicit oracles, so every pipeline function is a pure Lean function
  of its inputs plus the oracle's answers.
* The blake3 digest is modelled by the exact byte stream fed to the
  hasher: the real code hashes this stream, so equal streams give equal
  digests and distinct streams give distinct digests up to hash
  collisions, which the original design accepts.
* The f32 arithmetic in the row budget is modelled by exact rationals
  rounded to binary32 precision (round to nearest, ties to even).
-/

namespace Leftysay

/-- Source constant DEFAULT_BUBBLE_MAX_WIDTH = 60 (src/main.rs line 18). -/
def DEFAULT_BUBBLE_MAX_WIDTH : Nat := 60

/-- The ChafaFormat enum (src/main.rs lines 112-124). -/
inductive ChafaFormat where
  | auto
  | unicode
  | kitty
  | iterm2
  | sixel
deriving DecidableEq, Repr

/-- ChafaFormat::as_arg (src/main.rs lines 127-135). -/
def ChafaFormat.as_arg : ChafaFormat → String
  | .auto => "auto"
  | .unicode => "symbols"
  | .kitty => "kitty"
  | .iterm2 => "iterm"
  | .sixel => "sixels"

/-- The ChafaColors enum (src/main.rs lines 140-151). -/
inductive ChafaColors where
  | auto
  | truecolor
  | c256
  | c16
deriving DecidableEq, Repr

/-- ChafaColors::as_arg (src/main.rs lines 154-161). -/
def ChafaColors.as_arg : ChafaColors → String
  | .auto => "auto"
  | .truecolor => "full"
  | .c256 => "256"
  | .c16 => "16"

/-- Outcome of one child-process invocation: exit status plus the captured
standard output and standard error, as in std::process::Output. -/
structure ProcOutput where
  success : Bool
  stdout : String
  stderr : String

/-- run_chafa (src/main.rs lines 539-581). The child process
run_chafa_once is abstracted as the oracle runOnce, taking the only two
arguments run_chafa varies (format and colors); image, cols, rows and
animate are fixed across both invocations. -/
def run_chafa (runOnce : ChafaFormat → ChafaColors → ProcOutput)
    (format : ChafaFormat) (colors : ChafaColors) : Except String String :=
  let output := runOnce format colors
  if output.success then
    Except.ok output.stdout
  else
    let last_err := output.stderr
    let fallback_format := if format = ChafaFormat.auto then ChafaFormat.unicode else format
    let fallback_colors := if colors = ChafaColors.auto then ChafaColors.truecolor else colors
    if fallback_format ≠ format ∨ fallback_colors ≠ colors then
      let retry := runOnce fallback_format fallback_colors
      if retry.success then Except.ok retry.stdout
      else Except.error retry.stderr
    else
      Except.error last_err

/-- How many times run_chafa (src/main.rs lines 539-581) invokes the
child process: 1 for the initial attempt, plus 1 when the fallback retry
branch is entered. Mirrors run_chafa's branch structure exactly. -/
def chafa_invocations (runOnce : ChafaFormat → ChafaColors → ProcOutput)
    (format : ChafaFormat) (colors : ChafaColors) : Nat :=
  let output := runOnce format colors
  if output.success then 1
  else
    let fallback_format := if format = ChafaFormat.auto then ChafaFormat.unicode else format
    let fallback_colors := if colors = ChafaColors.auto then ChafaColors.truecolor else colors
    if fallback_format ≠ format ∨ fallback_colors ≠ colors then 2 else 1

/-- The filesystem operations render_image (src/main.rs lines 500-537)
performs on the cache, abstracted as an oracle: each field is the answer
the filesystem gives to the corresponding call site. -/
structure CacheFS where
  cachePathExists : Bool
  readCache : Except String String
  touchWrite : String → Except String Unit
  createDirAll : Except String Unit
  createFile : Except String Unit
  writePayload : String → Except String Unit
  enforceLimit : Except String Unit

/-- render_image (src/main.rs lines 500-537). Every Rust question-mark
on a cache operation is an early Except.error return, exactly as the
source propagates std::io errors. -/
def render_image (fso : CacheFS) (runOnce : ChafaFormat → ChafaColors → ProcOutput)
    (format : ChafaFormat) (colors : ChafaColors)
    (cache_enabled : Bool) : Except String String :=
  if cache_enabled && fso.cachePathExists then
    match fso.readCache with
    | Except.error e => Except.error e
    | Except.ok contents =>
      match fso.touchWrite contents with
      | Except.error e => Except.error e
      | Except.ok _ => Except.ok contents
  else
    match run_chafa runOnce format colors with
    | Except.error e => Except.error e
    | Except.ok output =>
      if cache_enabled then
        match fso.createDirAll with
        | Except.error e => Except.error e
        | Except.ok _ =>
          match fso.createFile with
          | Except.error e => Except.error e
          | Except.ok _ =>
            match fso.writePayload output with
            | Except.error e => Except.error e
            | Except.ok _ =>
              match fso.enforceLimit with
              | Except.error e => Except.error e
              | Except.ok _ => Except.ok output
      else
        Except.ok output

/-- Little-endian byte encoding of n truncated to w bytes, as Rust's
to_le_bytes produces for a w-byte unsigned integer. -/
def toLEBytes : Nat → Nat → List Nat
  | 0, _ => []
  | w + 1, n => n % 256 :: toLEBytes w (n / 256)

/-- Bytes of an ASCII string (for the ASCII arguments hashed by
cache_key, char codes coincide with UTF-8 bytes). -/
def strBytes (s : String) : List Nat :=
  s.toList.map Char.toNat

/-- cache_key (src/main.rs lines 607-631): the exact byte stream fed to
the blake3 hasher, in update order: image path bytes, 8-byte
little-endian mtime (u64), cols and rows (usize, 8 bytes each), the
format and colors argument strings, and one animate byte. The digest is
modelled by this stream (see the file header). -/
def cache_key (pathBytes : List Nat) (mtime cols rows : Nat)
    (format : ChafaFormat) (colors : ChafaColors) (animate : Bool) : List Nat :=
  pathBytes ++ toLEBytes 8 mtime ++ toLEBytes 8 cols ++ toLEBytes 8 rows ++
    strBytes format.as_arg ++ strBytes colors.as_arg ++
    [if animate then 1 else 0]

/-- One cache directory entry as enforce_cache_limit sees it: its file
size in bytes and its modification time. Models the run the claim is
about, in which every metadata read and file deletion succeeds. -/
structure CacheEntry where
  size : Nat
  mtime : Nat
deriving DecidableEq, Repr

/-- Total size of a list of cache entries (the sum at
src/main.rs lines 649-652). -/
def totalSize (es : List CacheEntry) : Nat :=
  (es.map CacheEntry.size).sum

/-- The sort at src/main.rs line 658: sort_by_key on modification time
(stable, ascending). -/
def sortEntries (es : List CacheEntry) : List CacheEntry :=
  es.mergeSort (fun a b => decide (a.mtime ≤ b.mtime))

/-- The deletion loop of enforce_cache_limit (src/main.rs lines 660-670)
with every deletion succeeding: stop as soon as the running total is
within budget, otherwise delete the entry and subtract its size. -/
def evictLoop (max_bytes : Nat) : Nat → List CacheEntry → List CacheEntry
  | _, [] => []
  | total, e :: rest =>
    if total ≤ max_bytes then e :: rest
    else evictLoop max_bytes (total - e.size) rest

/-- enforce_cache_limit (src/main.rs lines 639-673) for a run in which
every metadata read and file deletion succeeds (the run the claim
quantifies over): returns the entries surviving in the directory. -/
def enforce_cache_limit (max_bytes : Nat) (es : List CacheEntry) : List CacheEntry :=
  let total := totalSize es
  if total ≤ max_bytes then es
  else evictLoop max_bytes total (sortEntries es)

/-- pad_line (src/main.rs lines 492-498) over char lists. -/
def pad_line (line : List Char) (width : Nat) : List Char :=
  if line.length < width then line ++ List.replicate (width - line.length) ' ' else line

/-- render_bubble (src/main.rs lines 456-490) over char lists. The
textwrap::wrap call is an external crate, abstracted as the wrapFn
oracle: given the text and the computed bubble width it returns the
wrapped lines. All framing around it follows the source line by line. -/
def render_bubble (wrapFn : List Char → Nat → List (List Char))
    (text : List Char) (term_cols : Nat) : List (List Char) :=
  let padding := 4
  if term_cols ≤ padding + 10 then
    [text]
  else
    let bubble_width := min (term_cols - padding) DEFAULT_BUBBLE_MAX_WIDTH
    let wrapped := wrapFn text bubble_width
    if wrapped = [] then
      []
    else
      let max_line_len := (wrapped.map List.length).foldr max 0
      let top := ' ' :: List.replicate (max_line_len + 2) '_'
      let body :=
        if wrapped.length = 1 then
          [['<', ' '] ++ pad_line (wrapped.headD []) max_line_len ++ [' ', '>']]
        else
          wrapped.enum.map (fun p =>
            let left : Char :=
              if p.1 = 0 then '/'
              else if p.1 + 1 = wrapped.length then '\\'
              else '|'
            let right : Char :=
              if p.1 = 0 then '\\'
              else if p.1 + 1 = wrapped.length then '/'
              else '|'
            [left, ' '] ++ pad_line p.2 max_line_len ++ [' ', right])
      let bottom := ' ' :: List.replicate (max_line_len + 2) '-'
      (top :: body) ++ [bottom]

/-- The rational 2 ^ k for an integer k, built with mkRat so it reduces
by plain kernel computation. -/
def pow2Q (k : ℤ) : ℚ := mkRat (Int.ofNat (2 ^ k.toNat)) (2 ^ (-k).toNat)

/-- Fuel-bounded binary logarithm: halve until the value reaches 1. With
fuel ≥ n this computes the floor of log2 n for n ≥ 1 (each step halves
n, so n steps of fuel always suffice). -/
def ilog2Aux : Nat → Nat → Nat
  | 0, _ => 0
  | fuel + 1, n => if n ≤ 1 then 0 else ilog2Aux fuel (n / 2) + 1

/-- Floor of the binary logarithm of n (0 for n ≤ 1). -/
def ilog2 (n : Nat) : Nat := ilog2Aux n n

/-- Round a rational to the nearest integer, ties to even: the IEEE-754
default rounding direction used by Rust f32 arithmetic. -/
def roundNearestEven (q : ℚ) : ℤ :=
  if q - ⌊q⌋ < 1 / 2 then ⌊q⌋
  else if 1 / 2 < q - ⌊q⌋ then ⌊q⌋ + 1
  else if ⌊q⌋ % 2 = 0 then ⌊q⌋ else ⌊q⌋ + 1

/-- The binade exponent of a positive rational: the unique e with
2 ^ e ≤ q < 2 ^ (e + 1). For q ≥ 1 this is the integer log2 of the
floor; for q < 1 the integer log2 of the floor of the reciprocal gives
either the exponent or one above it, decided by one comparison. -/
def floorLog2Pos (q : ℚ) : ℤ :=
  if 1 ≤ q then (ilog2 ⌊q⌋.toNat : ℤ)
  else
    if pow2Q (-(ilog2 ⌊q⁻¹⌋.toNat : ℤ)) ≤ q then -(ilog2 ⌊q⁻¹⌋.toNat : ℤ)
    else -(ilog2 ⌊q⁻¹⌋.toNat : ℤ) - 1

/-- Round a nonnegative rational to the nearest IEEE-754 binary32 value:
scale into the 24-bit significand range of the value's binade, round to
nearest with ties to even, scale back. The exponent is unbounded, so
this is exact for the normal f32 range; the inputs arising here (a
terminal row count times a ratio in (0,1]) can never overflow it, and
below the subnormal threshold both the model and f32 floor to 0. -/
def fround (q : ℚ) : ℚ :=
  if q ≤ 0 then 0
  else
    ((roundNearestEven (q * pow2Q (23 - floorLog2Pos q)) : ℤ) : ℚ) *
      pow2Q (floorLog2Pos q - 23)

/-- The image row budget computed in main (src/main.rs lines 212-215).
Line 213 computes ((term_rows as f32) * max_height_ratio).floor() as
usize: the usize-to-f32 cast and the f32 multiplication each round to
the nearest binary32 value (ties to even), modelled by fround, and the
floor of that f32 value converts exactly. -/
def image_rows (term_rows bubble_height : Nat) (ratio : ℚ) : Nat :=
  let max_image_rows := (⌊fround (fround (term_rows : ℚ) * ratio)⌋).toNat
  let remaining_rows := term_rows - (bubble_height + 1)
  max (min max_image_rows remaining_rows) 1

/-- Claim C6: the cache key is a deterministic pure function of the image
path, mtime, cols, rows, format, colors and animate flag: computations on
componentwise-equal inputs give the same digest. -/
theorem cache_key_deterministic (p p' : List Nat) (mt mt' cols cols' rows rows' : Nat)
    (f f' : ChafaFormat) (c c' : ChafaColors) (a a' : Bool)
    (hp : p = p') (hmt : mt = mt') (hcols : cols = cols') (hrows : rows = rows')
    (hf : f = f') (hc : c = c') (ha : a = a') :
    cache_key p mt cols rows f c a = cache_key p' mt' cols' rows' f' c' a' := by
  subst hp hmt hcols hrows hf hc ha
  rfl

theorem cache_key_deterministic_witness :
    cache_key [1] 2 3 4 ChafaFormat.auto ChafaColors.auto true =
      cache_key [1] 2 3 4 ChafaFormat.auto ChafaColors.auto true :=
  cache_key_deterministic [1] [1] 2 2 3 3 4 4 ChafaFormat.auto ChafaFormat.auto
    ChafaColors.auto ChafaColors.auto true true rfl rfl rfl rfl rfl rfl rfl

/-- Claim C8: when the terminal is at most padding + 10 = 14 columns wide,
render_bubble returns exactly one line equal to the original message,
unmodified and without any box decoration. -/
theorem render_bubble_narrow (wrapFn : List Char → Nat → List (List Char))
    (text : List Char) (term_cols : Nat) (h : term_cols ≤ 14) :
    render_bubble wrapFn text term_cols = [text] := by
  unfold render_bubble
  have h' : term_cols ≤ 4 + 10 := by omega
  simp [h']

theorem render_bubble_narrow_witness :
    render_bubble (fun _ _ => []) ['h', 'i'] 10 = [['h', 'i']] :=
  render_bubble_narrow (fun _ _ => []) ['h', 'i'] 10 (by omega)

/-- Claim C10: when the terminal is wide enough for a box but word
wrapping produces no lines, render_bubble emits nothing at all: no
borders and no content line. -/
theorem render_bubble_empty_wrap (wrapFn : List Char → Nat → List (List Char))
    (text : List Char) (term_cols : Nat) (h : 14 < term_cols)
    (hw : wrapFn text (min (term_cols - 4) DEFAULT_BUBBLE_MAX_WIDTH) = []) :
    render_bubble wrapFn text term_cols = [] := by
  unfold render_bubble
  have h' : ¬ term_cols ≤ 4 + 10 := by omega
  simp [h', hw]

theorem render_bubble_empty_wrap_witness :
    render_bubble (fun _ _ => []) [] 20 = [] :=
  render_bubble_empty_wrap (fun _ _ => []) [] 20 (by omega) rfl

/-- Powers of two are nonnegative rationals. -/
lemma pow2Q_nonneg (k : ℤ) : 0 ≤ pow2Q k :=
  Rat.mkRat_nonneg (Int.ofNat_nonneg _) _

/-- Rounding a nonnegative rational to the nearest integer (ties to
even) stays nonnegative. -/
lemma roundNearestEven_nonneg (q : ℚ) (h : 0 ≤ q) : 0 ≤ roundNearestEven q := by
  have hf : 0 ≤ ⌊q⌋ := Int.floor_nonneg.mpr h
  unfold roundNearestEven
  split_ifs <;> omega

/-- The binary32 rounding of any rational is nonnegative. -/
lemma fround_nonneg (q : ℚ) : 0 ≤ fround q := by
  unfold fround
  split_ifs with h
  · exact le_refl 0
  · push_neg at h
    refine mul_nonneg ?_ (pow2Q_nonneg _)
    exact_mod_cast roundNearestEven_nonneg _ (mul_nonneg h.le (pow2Q_nonneg _))

/-- Claim C3, amended: the image row budget equals
max(1, min(floor(f32(totalRows) * ratio computed in f32),
max(0, totalRows - bubbleLineCount - 1))): the floor is taken of the
round-to-nearest-even binary32 product, not of the exact product. The
claimed concrete instances hold with ratio the binary32 value nearest
0.55: (24, 4) gives 13 and (10, 8) gives 1. -/
theorem image_rows_formula (term_rows bubble_height : Nat) (ratio : ℚ)
    (_h0 : 0 < ratio) (_h1 : ratio ≤ 1) :
    ((image_rows term_rows bubble_height ratio : ℤ) =
      max 1 (min ⌊fround (fround (term_rows : ℚ) * ratio)⌋
        (max 0 ((term_rows : ℤ) - bubble_height - 1)))) ∧
    image_rows 24 4 (fround (11 / 20)) = 13 ∧
    image_rows 10 8 (fround (11 / 20)) = 1 := by
  refine ⟨?_, ?_, ?_⟩
  · have hF : 0 ≤ ⌊fround (fround (term_rows : ℚ) * ratio)⌋ :=
      Int.floor_nonneg.mpr (fround_nonneg _)
    unfold image_rows
    generalize ⌊fround (fround (term_rows : ℚ) * ratio)⌋ = F at hF ⊢
    push_cast [Int.toNat_of_nonneg hF]
    omega
  · with_unfolding_all rfl
  · with_unfolding_all rfl

theorem image_rows_formula_witness :
    image_rows 24 4 (fround (11 / 20)) = 13 ∧
    image_rows 10 8 (fround (11 / 20)) = 1 :=
  ⟨(image_rows_formula 24 4 (fround (11 / 20))
      (by rw [show fround (11 / 20) = mkRat 9227469 16777216 from by with_unfolding_all rfl]
          decide)
      (by rw [show fround (11 / 20) = mkRat 9227469 16777216 from by with_unfolding_all rfl]
          decide)).2.1,
   (image_rows_formula 10 8 (fround (11 / 20))
      (by rw [show fround (11 / 20) = mkRat 9227469 16777216 from by with_unfolding_all rfl]
          decide)
      (by rw [show fround (11 / 20) = mkRat 9227469 16777216 from by with_unfolding_all rfl]
          decide)).2.2⟩

/-- Claim C3 as stated is false on the code: line 213 floors the f32
product, not the exact product. At totalRows 99, bubbleLineCount 0 and
ratio 12540545 / 2^24 (a binary32 value inside (0,1], reachable since
the CLI ratio is passed through unclamped), the exact product is
74 - 29 * 2^-24 with floor 73, but binary32 rounding gives exactly 74.0,
so the program budgets 74 rows while the claimed exact formula gives 73. -/
theorem image_rows_formula_cex :
    (0 : ℚ) < 12540545 / 16777216 ∧ (12540545 / 16777216 : ℚ) ≤ 1 ∧
    fround (12540545 / 16777216) = 12540545 / 16777216 ∧
    image_rows 99 0 (12540545 / 16777216) = 74 ∧
    max 1 (min ⌊(99 : ℚ) * (12540545 / 16777216)⌋ (max 0 ((99 : ℤ) - 0 - 1))) = 73 ∧
    (74 : ℕ) ≠ 73 := by
  refine ⟨by norm_num, by norm_num, by with_unfolding_all rfl,
    by with_unfolding_all rfl, ?_, by decide⟩
  have hfl : ⌊(99 : ℚ) * (12540545 / 16777216)⌋ = 73 := by
    rw [Int.floor_eq_iff]
    norm_num
  rw [hfl]
  omega

/-- The fallback substitution changes a parameter exactly when format or
colors was the auto sentinel. -/
lemma fallback_changes_iff (format : ChafaFormat) (colors : ChafaColors) :
    ((if format = ChafaFormat.auto then ChafaFormat.unicode else format) ≠ format ∨
      (if colors = ChafaColors.auto then ChafaColors.truecolor else colors) ≠ colors) ↔
    (format = ChafaFormat.auto ∨ colors = ChafaColors.auto) := by
  cases format <;> cases colors <;> decide

/-- Claim C2: when the first chafa invocation fails, exactly one retry is
made iff format or colors was auto, with auto format replaced by the
Unicode default and auto colors by the truecolor default; with neither
auto there is no retry and the first invocation's stderr is surfaced; and
when the retry also fails the reported diagnostic is the retry's stderr. -/
theorem run_chafa_fallback (runOnce : ChafaFormat → ChafaColors → ProcOutput)
    (format : ChafaFormat) (colors : ChafaColors)
    (hfail : (runOnce format colors).success = false) :
    ((format = ChafaFormat.auto ∨ colors = ChafaColors.auto) →
      chafa_invocations runOnce format colors = 2 ∧
      run_chafa runOnce format colors =
        (let retry := runOnce (if format = ChafaFormat.auto then ChafaFormat.unicode else format)
          (if colors = ChafaColors.auto then ChafaColors.truecolor else colors)
        if retry.success then Except.ok retry.stdout else Except.error retry.stderr)) ∧
    ((format ≠ ChafaFormat.auto ∧ colors ≠ ChafaColors.auto) →
      chafa_invocations runOnce format colors = 1 ∧
      run_chafa runOnce format colors = Except.error (runOnce format colors).stderr) ∧
    ((format = ChafaFormat.auto ∨ colors = ChafaColors.auto) →
      ((runOnce (if format = ChafaFormat.auto then ChafaFormat.unicode else format)
          (if colors = ChafaColors.auto then ChafaColors.truecolor else colors)).success = false) →
      run_chafa runOnce format colors =
        Except.error (runOnce (if format = ChafaFormat.auto then ChafaFormat.unicode else format)
          (if colors = ChafaColors.auto then ChafaColors.truecolor else colors)).stderr) := by
  refine ⟨fun hauto => ?_, fun hboth => ?_, fun hauto hretry => ?_⟩ <;>
    cases format <;> cases colors <;>
    simp_all [run_chafa, chafa_invocations]

theorem run_chafa_fallback_witness :
    chafa_invocations (fun _ _ => ProcOutput.mk false "" "boom") ChafaFormat.auto ChafaColors.auto = 2 ∧
    run_chafa (fun _ _ => ProcOutput.mk false "" "boom") ChafaFormat.auto ChafaColors.auto =
      Except.error "boom" :=
  ⟨((run_chafa_fallback (fun _ _ => ProcOutput.mk false "" "boom")
      ChafaFormat.auto ChafaColors.auto rfl).1 (Or.inl rfl)).1,
   (run_chafa_fallback (fun _ _ => ProcOutput.mk false "" "boom")
      ChafaFormat.auto ChafaColors.auto rfl).2.2 (Or.inl rfl) rfl⟩

/-- Claim C4, corrected: when caching is enabled and the cache entry file
exists, a failure reading it, or rewriting it for the recency touch, is
fatal: render_image returns that error without invoking the renderer,
instead of falling back to a re-render. -/
theorem render_image_cache_read_error (fso : CacheFS)
    (runOnce : ChafaFormat → ChafaColors → ProcOutput)
    (format : ChafaFormat) (colors : ChafaColors)
    (hex : fso.cachePathExists = true) :
    (∀ e, fso.readCache = Except.error e →
      render_image fso runOnce format colors true = Except.error e) ∧
    (∀ s e, fso.readCache = Except.ok s → fso.touchWrite s = Except.error e →
      render_image fso runOnce format colors true = Except.error e) := by
  constructor
  · intro e he
    simp [render_image, hex, he]
  · intro s e hs he
    simp [render_image, hex, hs, he]

theorem render_image_cache_read_error_witness :
    render_image
      (CacheFS.mk true (Except.error "io") (fun _ => Except.ok ()) (Except.ok ())
        (Except.ok ()) (fun _ => Except.ok ()) (Except.ok ()))
      (fun _ _ => ProcOutput.mk true "payload" "") ChafaFormat.auto ChafaColors.auto true =
      Except.error "io" :=
  (render_image_cache_read_error
    (CacheFS.mk true (Except.error "io") (fun _ => Except.ok ()) (Except.ok ())
      (Except.ok ()) (fun _ => Except.ok ()) (Except.ok ()))
    (fun _ _ => ProcOutput.mk true "payload" "") ChafaFormat.auto ChafaColors.auto rfl).1
    "io" rfl

/-- Claim C4 as stated is false on the code: with the cache file present
but unreadable, render_image surfaces the read error even though the
renderer would have produced the payload. -/
theorem render_image_cache_read_error_cex :
    render_image
      (CacheFS.mk true (Except.error "io") (fun _ => Except.ok ()) (Except.ok ())
        (Except.ok ()) (fun _ => Except.ok ()) (Except.ok ()))
      (fun _ _ => ProcOutput.mk true "payload" "") ChafaFormat.auto ChafaColors.auto true =
      Except.error "io" ∧
    run_chafa (fun _ _ => ProcOutput.mk true "payload" "") ChafaFormat.auto ChafaColors.auto =
      Except.ok "payload" ∧
    (Except.error "io" : Except String String) ≠ Except.ok "payload" :=
  ⟨rfl, rfl, fun h => Except.noConfusion h⟩

/-- Claim C5, corrected: on a cache miss with a successful render and
caching enabled, any failure persisting the payload (directory creation,
file creation, payload write, or the eviction pass) is fatal:
render_image returns that error instead of the rendered payload, which is
returned only when every persistence step succeeds. -/
theorem render_image_persist_error (fso : CacheFS)
    (runOnce : ChafaFormat → ChafaColors → ProcOutput)
    (format : ChafaFormat) (colors : ChafaColors) (out : String)
    (hmiss : fso.cachePathExists = false)
    (hrun : run_chafa runOnce format colors = Except.ok out) :
    (∀ e, fso.createDirAll = Except.error e →
      render_image fso runOnce format colors true = Except.error e) ∧
    (∀ e, fso.createDirAll = Except.ok () → fso.createFile = Except.error e →
      render_image fso runOnce format colors true = Except.error e) ∧
    (∀ e, fso.createDirAll = Except.ok () → fso.createFile = Except.ok () →
      fso.writePayload out = Except.error e →
      render_image fso runOnce format colors true = Except.error e) ∧
    (∀ e, fso.createDirAll = Except.ok () → fso.createFile = Except.ok () →
      fso.writePayload out = Except.ok () → fso.enforceLimit = Except.error e →
      render_image fso runOnce format colors true = Except.error e) ∧
    (fso.createDirAll = Except.ok () → fso.createFile = Except.ok () →
      fso.writePayload out = Except.ok () → fso.enforceLimit = Except.ok () →
      render_image fso runOnce format colors true = Except.ok out) := by
  refine ⟨fun e h1 => ?_, fun e h1 h2 => ?_, fun e h1 h2 h3 => ?_,
    fun e h1 h2 h3 h4 => ?_, fun h1 h2 h3 h4 => ?_⟩
  · simp [render_image, hmiss, hrun, h1]
  · simp [render_image, hmiss, hrun, h1, h2]
  · simp [render_image, hmiss, hrun, h1, h2, h3]
  · simp [render_image, hmiss, hrun, h1, h2, h3, h4]
  · simp [render_image, hmiss, hrun, h1, h2, h3, h4]

theorem render_image_persist_error_witness :
    render_image
      (CacheFS.mk false (Except.ok "") (fun _ => Except.ok ()) (Except.error "disk")
        (Except.ok ()) (fun _ => Except.ok ()) (Except.ok ()))
      (fun _ _ => ProcOutput.mk true "payload" "") ChafaFormat.auto ChafaColors.auto true =
      Except.error "disk" :=
  (render_image_persist_error
    (CacheFS.mk false (Except.ok "") (fun _ => Except.ok ()) (Except.error "disk")
      (Except.ok ()) (fun _ => Except.ok ()) (Except.ok ()))
    (fun _ _ => ProcOutput.mk true "payload" "") ChafaFormat.auto ChafaColors.auto
    "payload" rfl rfl).1 "disk" rfl

/-- Claim C5 as stated is false on the code: with a successful render but
a failing cache-directory creation, render_image fails instead of
returning the rendered payload. -/
theorem render_image_persist_error_cex :
    render_image
      (CacheFS.mk false (Except.ok "") (fun _ => Except.ok ()) (Except.error "disk")
        (Except.ok ()) (fun _ => Except.ok ()) (Except.ok ()))
      (fun _ _ => ProcOutput.mk true "payload" "") ChafaFormat.auto ChafaColors.auto true =
      Except.error "disk" ∧
    run_chafa (fun _ _ => ProcOutput.mk true "payload" "") ChafaFormat.auto ChafaColors.auto =
      Except.ok "payload" ∧
    (Except.error "disk" : Except String String) ≠ Except.ok "payload" :=
  ⟨rfl, rfl, fun h => Except.noConfusion h⟩

/-- Sorting the cache entries preserves their total size. -/
lemma totalSize_sortEntries (es : List CacheEntry) :
    totalSize (sortEntries es) = totalSize es := by
  unfold totalSize sortEntries
  exact ((List.mergeSort_perm es _).map CacheEntry.size).sum_eq

/-- The eviction loop only ever removes a prefix of the list it walks. -/
lemma evictLoop_suffix (max_bytes : Nat) :
    ∀ (es : List CacheEntry) (total : Nat),
      List.IsSuffix (evictLoop max_bytes total es) es := by
  intro es
  induction es with
  | nil =>
    intro total
    simp [evictLoop]
  | cons e rest ih =>
    intro total
    unfold evictLoop
    by_cases h : total ≤ max_bytes
    · rw [if_pos h]
    · rw [if_neg h]
      exact (ih (total - e.size)).trans (List.suffix_cons e rest)

/-- When the running total is the exact total of the remaining entries,
the eviction loop drives the surviving total within budget. -/
lemma evictLoop_le (max_bytes : Nat) :
    ∀ (es : List CacheEntry) (total : Nat), total = totalSize es →
      totalSize (evictLoop max_bytes total es) ≤ max_bytes := by
  intro es
  induction es with
  | nil =>
    intro total h
    simp [evictLoop, totalSize]
  | cons e rest ih =>
    intro total h
    have hsz : totalSize (e :: rest) = e.size + totalSize rest := by
      simp [totalSize]
    unfold evictLoop
    by_cases hle : total ≤ max_bytes
    · rw [if_pos hle, ← h]
      exact hle
    · rw [if_neg hle]
      apply ih
      omega

/-- Claim C1: with every metadata read and deletion succeeding, when the
total entry size exceeds the budget, enforce_cache_limit leaves a total
within the budget and the survivors are a suffix of the
ascending-modification-time ordering of the entries; when the total is
already within the budget it deletes nothing. -/
theorem enforce_cache_limit_spec (max_bytes : Nat) (es : List CacheEntry) :
    (max_bytes < totalSize es →
      totalSize (enforce_cache_limit max_bytes es) ≤ max_bytes ∧
      List.IsSuffix (enforce_cache_limit max_bytes es) (sortEntries es)) ∧
    (totalSize es ≤ max_bytes → enforce_cache_limit max_bytes es = es) := by
  constructor
  · intro h
    have hn : ¬ totalSize es ≤ max_bytes := by omega
    unfold enforce_cache_limit
    rw [if_neg hn]
    refine ⟨?_, evictLoop_suffix max_bytes (sortEntries es) (totalSize es)⟩
    exact evictLoop_le max_bytes (sortEntries es) (totalSize es)
      (totalSize_sortEntries es).symm
  · intro h
    unfold enforce_cache_limit
    rw [if_pos h]

theorem enforce_cache_limit_spec_witness :
    totalSize
        (enforce_cache_limit 5 [CacheEntry.mk 4 2, CacheEntry.mk 3 1]) ≤ 5 ∧
    List.IsSuffix (enforce_cache_limit 5 [CacheEntry.mk 4 2, CacheEntry.mk 3 1])
      (sortEntries [CacheEntry.mk 4 2, CacheEntry.mk 3 1]) ∧
    enforce_cache_limit 7 [CacheEntry.mk 4 2, CacheEntry.mk 3 1] =
      [CacheEntry.mk 4 2, CacheEntry.mk 3 1] :=
  ⟨((enforce_cache_limit_spec 5 [CacheEntry.mk 4 2, CacheEntry.mk 3 1]).1 (by decide)).1,
   ((enforce_cache_limit_spec 5 [CacheEntry.mk 4 2, CacheEntry.mk 3 1]).1 (by decide)).2,
   (enforce_cache_limit_spec 7 [CacheEntry.mk 4 2, CacheEntry.mk 3 1]).2 (by decide)⟩

lemma toLEBytes_length (w : Nat) : ∀ n, (toLEBytes w n).length = w := by
  induction w with
  | zero => intro n; rfl
  | succ w ih =>
    intro n
    simp [toLEBytes, ih]

/-- A w-byte little-endian encoding is injective below 256 ^ w. -/
lemma toLEBytes_inj (w : Nat) :
    ∀ n m, n < 256 ^ w → m < 256 ^ w → toLEBytes w n = toLEBytes w m → n = m := by
  induction w with
  | zero =>
    intro n m hn hm _
    omega
  | succ w ih =>
    intro n m hn hm h
    simp only [toLEBytes, List.cons.injEq] at h
    have hd : n / 256 = m / 256 := by
      apply ih
      · exact Nat.div_lt_of_lt_mul (by rw [pow_succ] at hn; omega)
      · exact Nat.div_lt_of_lt_mul (by rw [pow_succ] at hm; omega)
      · exact h.2
    omega

lemma format_bytes_inj (f f' : ChafaFormat)
    (h : strBytes f.as_arg = strBytes f'.as_arg) : f = f' := by
  cases f <;> cases f' <;> revert h <;> decide

lemma colors_bytes_inj (c c' : ChafaColors)
    (h : strBytes c.as_arg = strBytes c'.as_arg) : c = c' := by
  cases c <;> cases c' <;> revert h <;> decide

/-- Claim C7: changing any single one of cols, rows, format, colors or
animate while holding the other cache-key inputs fixed changes the key;
concretely, for image.png with equal rows, format, colors and animate,
cols 40 and cols 80 give distinct keys. -/
theorem cache_key_sensitive (p : List Nat) (mt : Nat) :
    (∀ cols cols' rows f c a, cols < 2 ^ 64 → cols' < 2 ^ 64 → cols ≠ cols' →
      cache_key p mt cols rows f c a ≠ cache_key p mt cols' rows f c a) ∧
    (∀ cols rows rows' f c a, rows < 2 ^ 64 → rows' < 2 ^ 64 → rows ≠ rows' →
      cache_key p mt cols rows f c a ≠ cache_key p mt cols rows' f c a) ∧
    (∀ cols rows f f' c a, f ≠ f' →
      cache_key p mt cols rows f c a ≠ cache_key p mt cols rows f' c a) ∧
    (∀ cols rows f c c' a, c ≠ c' →
      cache_key p mt cols rows f c a ≠ cache_key p mt cols rows f c' a) ∧
    (∀ cols rows f c a a', a ≠ a' →
      cache_key p mt cols rows f c a ≠ cache_key p mt cols rows f c a') ∧
    cache_key (strBytes "image.png") 0 40 10 ChafaFormat.auto ChafaColors.auto false ≠
      cache_key (strBytes "image.png") 0 80 10 ChafaFormat.auto ChafaColors.auto false := by
  have h64 : (2 : Nat) ^ 64 = 256 ^ 8 := by norm_num
  refine ⟨?_, ?_, ?_, ?_, ?_, ?_⟩
  · intro cols cols' rows f c a hc hc' hne heq
    unfold cache_key at heq
    simp only [List.append_assoc] at heq
    have h1 := List.append_cancel_left heq
    have h2 := List.append_cancel_left h1
    have h3 := (List.append_inj h2 (by rw [toLEBytes_length, toLEBytes_length])).1
    exact hne (toLEBytes_inj 8 cols cols' (h64 ▸ hc) (h64 ▸ hc') h3)
  · intro cols rows rows' f c a hr hr' hne heq
    unfold cache_key at heq
    simp only [List.append_assoc] at heq
    have h1 := List.append_cancel_left (List.append_cancel_left
      (List.append_cancel_left heq))
    have h3 := (List.append_inj h1 (by rw [toLEBytes_length, toLEBytes_length])).1
    exact hne (toLEBytes_inj 8 rows rows' (h64 ▸ hr) (h64 ▸ hr') h3)
  · intro cols rows f f' c a hne heq
    unfold cache_key at heq
    simp only [List.append_assoc] at heq
    have h1 := List.append_cancel_left (List.append_cancel_left
      (List.append_cancel_left (List.append_cancel_left heq)))
    have h3 := (List.append_inj' h1 rfl).1
    exact hne (format_bytes_inj f f' h3)
  · intro cols rows f c c' a hne heq
    unfold cache_key at heq
    simp only [List.append_assoc] at heq
    have h1 := List.append_cancel_left (List.append_cancel_left
      (List.append_cancel_left (List.append_cancel_left (List.append_cancel_left heq))))
    have h3 := (List.append_inj' h1 rfl).1
    exact hne (colors_bytes_inj c c' h3)
  · intro cols rows f c a a' hne heq
    unfold cache_key at heq
    simp only [List.append_assoc] at heq
    have h1 := List.append_cancel_left (List.append_cancel_left
      (List.append_cancel_left (List.append_cancel_left
        (List.append_cancel_left (List.append_cancel_left heq)))))
    cases a <;> cases a' <;> simp_all
  · decide

theorem cache_key_sensitive_witness :
    cache_key [] 0 40 10 ChafaFormat.auto ChafaColors.auto false ≠
      cache_key [] 0 80 10 ChafaFormat.auto ChafaColors.auto false :=
  (cache_key_sensitive [] 0).1 40 80 10 ChafaFormat.auto ChafaColors.auto false
    (by norm_num) (by norm_num) (by decide)

/-- Every element of a list of naturals is bounded by its foldr max. -/
lemma le_foldr_max (l : List Nat) : ∀ x ∈ l, x ≤ l.foldr max 0 := by
  induction l with
  | nil => simp
  | cons a t ih =>
    intro x hx
    rcases List.mem_cons.mp hx with h | h
    · subst h
      exact le_max_left x (t.foldr max 0)
    · exact (ih x h).trans (le_max_right a (t.foldr max 0))

/-- Padding a line no longer than the width yields exactly the width. -/
lemma pad_line_length (line : List Char) (width : Nat) (h : line.length ≤ width) :
    (pad_line line width).length = width := by
  unfold pad_line
  split
  · simp
    omega
  · omega

/-- The second component of an enumFrom member is a member of the list. -/
lemma snd_mem_of_mem_enumFrom {α : Type} :
    ∀ (l : List α) (n : Nat) (q : Nat × α), q ∈ l.enumFrom n → q.2 ∈ l := by
  intro l
  induction l with
  | nil =>
    intro n q h
    simp [List.enumFrom] at h
  | cons a t ih =>
    intro n q h
    rw [List.enumFrom] at h
    rcases List.mem_cons.mp h with h | h
    · subst h
      exact List.mem_cons_self a t
    · exact List.mem_cons_of_mem a (ih (n + 1) q h)

/-- Claim C9, amended: when a box is produced, its width is derived from
the longest wrapped line's length m: every framed content line has total
length m + 4 (the longest line plus the fixed padding), while the top
underscore border and bottom dash border each have total length m + 3,
one character less than the content lines. -/
theorem render_bubble_box_shape (wrapFn : List Char → Nat → List (List Char))
    (text : List Char) (term_cols : Nat) (h : 14 < term_cols)
    (hw : wrapFn text (min (term_cols - 4) DEFAULT_BUBBLE_MAX_WIDTH) ≠ []) :
    ∃ body : List (List Char),
      render_bubble wrapFn text term_cols =
        (' ' :: List.replicate
            ((((wrapFn text (min (term_cols - 4) DEFAULT_BUBBLE_MAX_WIDTH)).map
              List.length).foldr max 0) + 2) '_') ::
          body ++
          [' ' :: List.replicate
            ((((wrapFn text (min (term_cols - 4) DEFAULT_BUBBLE_MAX_WIDTH)).map
              List.length).foldr max 0) + 2) '-'] ∧
      body.length = (wrapFn text (min (term_cols - 4) DEFAULT_BUBBLE_MAX_WIDTH)).length ∧
      ∀ l ∈ body,
        l.length = (((wrapFn text (min (term_cols - 4) DEFAULT_BUBBLE_MAX_WIDTH)).map
          List.length).foldr max 0) + 4 := by
  have h' : ¬ term_cols ≤ 4 + 10 := by omega
  simp only [render_bubble]
  rw [if_neg h', if_neg hw]
  refine ⟨_, rfl, ?_, ?_⟩
  · by_cases h1 : (wrapFn text (min (term_cols - 4) DEFAULT_BUBBLE_MAX_WIDTH)).length = 1
    · rw [if_pos h1, h1]
      rfl
    · rw [if_neg h1]
      rw [List.length_map, List.enum_length]
  · by_cases h1 : (wrapFn text (min (term_cols - 4) DEFAULT_BUBBLE_MAX_WIDTH)).length = 1
    · rw [if_pos h1]
      intro l hl
      rcases List.mem_singleton.mp hl with rfl
      have hmem : (wrapFn text (min (term_cols - 4) DEFAULT_BUBBLE_MAX_WIDTH)).headD [] ∈
          wrapFn text (min (term_cols - 4) DEFAULT_BUBBLE_MAX_WIDTH) := by
        cases hcase : wrapFn text (min (term_cols - 4) DEFAULT_BUBBLE_MAX_WIDTH) with
        | nil => exact absurd hcase hw
        | cons a t => simp
      have hle := le_foldr_max _ _ (List.mem_map_of_mem List.length hmem)
      simp only [List.length_append, List.length_cons, List.length_nil,
        pad_line_length _ _ hle]
      omega
    · rw [if_neg h1]
      intro l hl
      rcases List.mem_map.mp hl with ⟨q, hq, rfl⟩
      have hmem := snd_mem_of_mem_enumFrom _ 0 q hq
      have hle := le_foldr_max _ _ (List.mem_map_of_mem List.length hmem)
      simp only [List.length_append, List.length_cons, List.length_nil,
        pad_line_length _ _ hle]
      omega

theorem render_bubble_box_shape_witness :
    ∃ body : List (List Char),
      render_bubble (fun _ _ => [['h', 'i']]) ['h', 'i'] 40 =
        (' ' :: List.replicate 4 '_') :: body ++ [' ' :: List.replicate 4 '-'] ∧
      body.length = 1 ∧ ∀ l ∈ body, l.length = 6 :=
  render_bubble_box_shape (fun _ _ => [['h', 'i']]) ['h', 'i'] 40 (by omega) (by decide)

/-- Claim C9 as stated is false on the code: in a produced box the
borders and the content lines do not share one total length. At message
hi in a 40-column terminal (wrapped to a single line hi) the box is
[" ____", "< hi >", " ----"], mixing lengths 5 and 6. -/
theorem render_bubble_box_shape_cex :
    ∃ l1 ∈ render_bubble (fun _ _ => [['h', 'i']]) ['h', 'i'] 40,
      ∃ l2 ∈ render_bubble (fun _ _ => [['h', 'i']]) ['h', 'i'] 40,
        l1.length ≠ l2.length := by
  decide

end Leftysay
